import Mathlib

/-!
Verification of the `plp_bookstore` demonstration scripts (`queries.js`,
`aggregations.js`, `indexing.js`).

The scripts issue a fixed sequence of operations against a single `books`
collection.  We embed the collection as a `List Book`, each query, update and
aggregation pipeline as a function on that list (prices and averages are exact
rationals), index management as a function on the list of index key
specifications, and the control flow of each script (try / catch-all / finally
teardown) as a trace of events parameterised by which operation throws.
-/

/-- A document of the `books` collection, with the fields used by the scripts. -/
structure Book where
  title : String
  author : String
  genre : String
  published_year : Int
  price : ℚ
  pages : Int
  publisher : String
  in_stock : Bool
  deriving DecidableEq, Repr

/-! ### Basic CRUD operations (`queries.js`, Task 2) -/

/-- `books.find({ genre: 'Fiction' })`. -/
def fictionBooks (docs : List Book) : List Book :=
  docs.filter fun b => b.genre == "Fiction"

/-- `books.find({ published_year: { $gt: 1950 } })`. -/
def recentBooks (docs : List Book) : List Book :=
  docs.filter fun b => 1950 < b.published_year

/-- `books.find({ author: 'George Orwell' })`. -/
def orwellBooks (docs : List Book) : List Book :=
  docs.filter fun b => b.author == "George Orwell"

/-- Result document of `updateOne`: `matchedCount` counts documents matching
the filter (at most one for `updateOne`), `modifiedCount` counts documents the
update actually changed; an update writing the value already present does not
count as a modification. -/
structure UpdateResult where
  matchedCount : Nat
  modifiedCount : Nat
  deriving DecidableEq, Repr

/-- `collection.updateOne(filter, update)`: applies `u` to the first document
matching `f`, leaving all other documents untouched. -/
def updateOne (f : Book → Bool) (u : Book → Book) : List Book → List Book × UpdateResult
  | [] => ([], ⟨0, 0⟩)
  | b :: rest =>
    if f b then (u b :: rest, ⟨1, if u b = b then 0 else 1⟩)
    else
      let r := updateOne f u rest
      (b :: r.1, r.2)

/-- `collection.deleteOne(filter)`: removes the first document matching `f`;
the second component is the reported `deletedCount`. -/
def deleteOne (f : Book → Bool) : List Book → List Book × Nat
  | [] => ([], 0)
  | b :: rest =>
    if f b then (rest, 1)
    else
      let r := deleteOne f rest
      (b :: r.1, r.2)

/-- The update document `{ $set: { price: 13.99 } }`. -/
def setPrice1399 (b : Book) : Book := { b with price := 13.99 }

/-- `books.updateOne({ title: '1984' }, { $set: { price: 13.99 } })`. -/
def updated (docs : List Book) : List Book × UpdateResult :=
  updateOne (fun b => b.title == "1984") setPrice1399 docs

/-- `books.deleteOne({ title: 'Moby Dick' })`. -/
def deleted (docs : List Book) : List Book × Nat :=
  deleteOne (fun b => b.title == "Moby Dick") docs

/-! ### Advanced queries (`queries.js`, Task 3) -/

/-- The projection `{ title: 1, author: 1, price: 1, _id: 0 }`. -/
def projectTAP (b : Book) : String × String × ℚ := (b.title, b.author, b.price)

/-- `books.find({ in_stock: true, published_year: { $gt: 2010 } })` with the
title/author/price projection. -/
def inStockRecent (docs : List Book) : List (String × String × ℚ) :=
  (docs.filter fun b => b.in_stock && 2010 < b.published_year).map projectTAP

/-- `books.find({}, { projection: { title: 1, author: 1, price: 1, _id: 0 } })`. -/
def projectedBooks (docs : List Book) : List (String × String × ℚ) :=
  docs.map projectTAP

/-- `books.find().sort({ price: 1 })`. -/
def sortedAsc (docs : List Book) : List Book :=
  List.insertionSort (fun a b => a.price ≤ b.price) docs

/-- `books.find().sort({ price: -1 })`. -/
def sortedDesc (docs : List Book) : List Book :=
  List.insertionSort (fun a b => b.price ≤ a.price) docs

/-- `const page = 1` in `queries.js`. -/
def page : Nat := 1

/-- `const booksPerPage = 5` in `queries.js`. -/
def booksPerPage : Nat := 5

/-- `books.find().skip((page - 1) * booksPerPage).limit(booksPerPage)`. -/
def paginatedBooks (docs : List Book) : List Book :=
  (docs.drop ((page - 1) * booksPerPage)).take booksPerPage

/-! ### Aggregation pipelines (`queries.js` Task 4 and `aggregations.js`) -/

/-- `$avg` over a list of numeric values: sum divided by count. -/
def avgQ (l : List ℚ) : ℚ := l.sum / (l.length : ℚ)

/-- `[{ $group: { _id: '$genre', averagePrice: { $avg: '$price' } } },
     { $sort: { averagePrice: -1 } }]`: one output document per distinct
genre, carrying the average price of that genre's documents, sorted by
average price descending. -/
def avgPriceByGenre (docs : List Book) : List (String × ℚ) :=
  List.insertionSort (fun a b => b.2 ≤ a.2)
    (((docs.map Book.genre).dedup).map fun g =>
      (g, avgQ ((docs.filter fun b => b.genre == g).map Book.price)))

/-- `$group: { _id: '$author', bookCount: { $sum: 1 } }` followed by
`$sort: { bookCount: -1 }`. -/
def authorCounts (docs : List Book) : List (String × Nat) :=
  List.insertionSort (fun a b => b.2 ≤ a.2)
    (((docs.map Book.author).dedup).map fun a =>
      (a, (docs.filter fun b => b.author == a).length))

/-- `queries.js` pipeline 2: author counts with `{ $limit: 1 }`. -/
def topAuthor (docs : List Book) : List (String × Nat) :=
  (authorCounts docs).take 1

/-- `aggregations.js` pipeline 2: the same group/sort/limit-1 pipeline
(output field named `totalBooks` there). -/
def mostBooksByAuthor (docs : List Book) : List (String × Nat) :=
  topAuthor docs

/-- The `$project` stage of the decade pipeline:
`$concat [$toString ($multiply [$floor ($divide ['$published_year', 10]), 10]), 's']`.
For an integer year the floored quotient is integer floor division. -/
def decadeStr (y : Int) : String :=
  toString (y.fdiv 10 * 10) ++ "s"

/-- Ordering of group documents by their string `_id`, ascending
(`$sort: { _id: 1 }`). -/
def keyLE (a b : String × Nat) : Prop := a.1 ≤ b.1

instance : IsTotal (String × Nat) keyLE := ⟨fun a b => le_total a.1 b.1⟩

instance : IsTrans (String × Nat) keyLE := ⟨fun _ _ _ h h2 => le_trans h h2⟩

instance : DecidableRel keyLE := fun a b => inferInstanceAs (Decidable (a.1 ≤ b.1))

/-- The decade pipeline: project each document to its decade string, group by
it counting documents, sort by `_id` ascending. -/
def booksByDecade (docs : List Book) : List (String × Nat) :=
  List.insertionSort keyLE
    (((docs.map fun b => decadeStr b.published_year).dedup).map fun d =>
      (d, (docs.filter fun b => decadeStr b.published_year == d).length))

/-- `$group: { _id: '$genre', totalPages: { $sum: '$pages' } }`,
`$sort: { totalPages: -1 }`. -/
def totalPagesByGenre (docs : List Book) : List (String × Int) :=
  List.insertionSort (fun a b => b.2 ≤ a.2)
    (((docs.map Book.genre).dedup).map fun g =>
      (g, ((docs.filter fun b => b.genre == g).map Book.pages).sum))

/-- `$group` by publisher with count, `$sort` descending, `$limit: 3`. -/
def topPublishers (docs : List Book) : List (String × Nat) :=
  (List.insertionSort (fun a b => b.2 ≤ a.2)
    (((docs.map Book.publisher).dedup).map fun p =>
      (p, (docs.filter fun b => b.publisher == p).length))).take 3

/-- `$group: { _id: '$author', averagePages: { $avg: '$pages' } }`,
`$sort: { averagePages: -1 }`. -/
def avgPagesByAuthor (docs : List Book) : List (String × ℚ) :=
  List.insertionSort (fun a b => b.2 ≤ a.2)
    (((docs.map Book.author).dedup).map fun a =>
      (a, avgQ ((docs.filter fun b => b.author == a).map fun b => (b.pages : ℚ))))

/-- `$group: { _id: '$in_stock', total: { $sum: 1 } }`. -/
def stockStatus (docs : List Book) : List (Bool × Nat) :=
  ((docs.map Book.in_stock).dedup).map fun s =>
    (s, (docs.filter fun b => b.in_stock == s).length)

/-! ### Claim C4 -/

/-- The un-sorted group stage of the decade pipeline. -/
def decadeGroups (docs : List Book) : List (String × Nat) :=
  ((docs.map fun b => decadeStr b.published_year).dedup).map fun d =>
    (d, (docs.filter fun b => decadeStr b.published_year == d).length)

/-! ### `$bucket` price-range pipeline (`aggregations.js` pipeline 6) -/

/-- `_id` of a `$bucket` output document: the lower boundary of its bucket, or
the `default` label for values outside all boundaries. -/
inductive BucketId
  | bound (q : ℚ)
  | fallback (label : String)
  deriving DecidableEq, Repr

/-- One `$bucket` output document with the `output` fields of the script. -/
structure BucketOut where
  id : BucketId
  totalBooks : Nat
  avgPrice : ℚ
  books : List String
  deriving DecidableEq, Repr

/-- Membership of a document in the bucket `[lo, hi)`. -/
def inRange (lo hi : ℚ) (b : Book) : Bool :=
  decide (lo ≤ b.price) && decide (b.price < hi)

/-- Membership in the `default` bucket: outside every boundary pair of
`boundaries: [0, 10, 15, 25]`. -/
def bucketDefaultFilter (b : Book) : Bool :=
  !(inRange 0 10 b || inRange 10 15 b || inRange 15 25 b)

/-- The `output` document of one bucket:
`{ totalBooks: { $sum: 1 }, avgPrice: { $avg: '$price' }, books: { $push: '$title' } }`. -/
def mkBucket (id : BucketId) (f : Book → Bool) (docs : List Book) : BucketOut :=
  ⟨id, (docs.filter f).length, avgQ ((docs.filter f).map Book.price),
    (docs.filter f).map Book.title⟩

/-- The `$bucket` stage with `groupBy: '$price'`, `boundaries: [0, 10, 15, 25]`,
`default: 'Above $25'`; only buckets containing at least one document are
output. -/
def booksByPriceRange (docs : List Book) : List BucketOut :=
  ([mkBucket (.bound 0) (inRange 0 10) docs,
    mkBucket (.bound 10) (inRange 10 15) docs,
    mkBucket (.bound 15) (inRange 15 25) docs,
    mkBucket (.fallback "Above $25") bucketDefaultFilter docs]).filter
    fun o => o.totalBooks != 0

/-- Bucket assignment exactly as claim C10 words it: `[0,10)` if `0 ≤ p < 10`,
`[10,15)` if `10 ≤ p < 15`, `[15,25)` if `15 ≤ p < 25`, and the default bucket
otherwise (including `p < 0` and `25 ≤ p`). -/
def assignedBucket (p : ℚ) : BucketId :=
  if 0 ≤ p ∧ p < 10 then .bound 0
  else if 10 ≤ p ∧ p < 15 then .bound 10
  else if 15 ≤ p ∧ p < 25 then .bound 15
  else .fallback "Above $25"

/-- Fixture: the book `1984` whose price is already `13.99`. -/
def book1984at1399 : Book :=
  ⟨"1984", "George Orwell", "Fiction", 1949, 13.99, 328, "Secker & Warburg", true⟩

/-- Fixture: the book `Moby Dick`. -/
def mobyDick : Book :=
  ⟨"Moby Dick", "Herman Melville", "Adventure", 1851, 12.5, 635, "Harper", true⟩

/-! ### Indexing (`queries.js` Task 5 and `indexing.js`) -/

/-- Direction or type of one key of an index specification: `1`, `-1`, or
`"text"`. -/
inductive IndexVal
  | asc
  | desc
  | text
  deriving DecidableEq, Repr

/-- An index key specification, e.g. `{ author: 1, published_year: -1 }`. -/
abbrev IndexSpec := List (String × IndexVal)

/-- String form of a key direction, as used in default index names. -/
def valStr : IndexVal → String
  | .asc => "1"
  | .desc => "-1"
  | .text => "text"

/-- The default index name derived from the key specification, e.g.
`author_1_published_year_-1`. -/
def indexName (spec : IndexSpec) : String :=
  String.intercalate "_" (spec.map fun p => p.1 ++ "_" ++ valStr p.2)

/-- `collection.createIndex(spec)` acting on the server's index list: creating
an index that already exists is a succeeding no-op; a different specification
under an existing name is rejected. -/
def createIndex (st : List IndexSpec) (spec : IndexSpec) :
    Except String (List IndexSpec) :=
  match st.find? (fun s => indexName s == indexName spec) with
  | some s => if s = spec then .ok st else .error "IndexOptionsConflict"
  | none => .ok (st ++ [spec])

/-- `{ title: 1 }` — created in both `queries.js` and `indexing.js`. -/
def titleIndex : IndexSpec := [("title", .asc)]

/-- `{ author: 1, published_year: -1 }` (`queries.js`). -/
def compoundIndex : IndexSpec := [("author", .asc), ("published_year", .desc)]

/-- `{ author: 1 }` (`indexing.js`). -/
def authorIndex : IndexSpec := [("author", .asc)]

/-- `{ genre: 1, price: -1 }` (`indexing.js`). -/
def genrePriceIndex : IndexSpec := [("genre", .asc), ("price", .desc)]

/-- `{ title: 'text', author: 'text', publisher: 'text' }` (`indexing.js`). -/
def textIndex : IndexSpec := [("title", .text), ("author", .text), ("publisher", .text)]

/-! ### Claim C7: the empty collection -/

/-- `indexing.js`: `books.find({ genre: 'Fiction', price: { $lt: 20 } })`
(the `hint` selects an index and does not change the result set). -/
def fictionCheap (docs : List Book) : List Book :=
  docs.filter fun b => b.genre == "Fiction" && decide (b.price < 20)

/-- `indexing.js`: `books.find({ $text: { $search: 'Python' } })`; a document
matches when a text-indexed field contains the search term as a
whitespace-separated token. -/
def searchResults (docs : List Book) : List Book :=
  docs.filter fun b =>
    ((b.title.splitOn " ") ++ (b.author.splitOn " ") ++
      (b.publisher.splitOn " ")).contains "Python"

/-- `books.find({ title: '1984' })` (run under `explain` in `queries.js`). -/
def titleSearch (docs : List Book) : List Book :=
  docs.filter fun b => b.title == "1984"

/-! ### Script control flow (claims C1, C2, C8)

Each script wraps its awaited operation sequence in
`try { … } catch (err) { console.error(…) } finally { await client.close() }`.
We model a run as the list of observable events, parameterised by a failure
oracle saying which operation (by position) throws when issued. -/

/-- An observable event of a script run. -/
inductive Event
  | issue (i : Nat)
  | complete (i : Nat)
  | logError
  | close
  deriving DecidableEq, Repr

/-- Trace of the `try` block over operations `k, k+1, …, k+n-1`: each
operation is issued and awaited in order; a throwing operation (as decided by
the oracle `fail`) produces no completion event and aborts the rest of the
block.  The flag reports whether the block threw. -/
def tryTraceFrom (fail : Nat → Bool) : Nat → Nat → List Event × Bool
  | _, 0 => ([], false)
  | k, n + 1 =>
    if fail k then ([Event.issue k], true)
    else
      let r := tryTraceFrom fail (k + 1) n
      (Event.issue k :: Event.complete k :: r.1, r.2)

/-- A whole script run: the `try` block over the script's operations, the
catch-all log when the block threw, then the `finally` block's single
`client.close()`. -/
def runScript (ops : List String) (fail : Nat → Bool) : List Event :=
  let r := tryTraceFrom fail 0 ops.length
  r.1 ++ (if r.2 then [Event.logError] else []) ++ [Event.close]

/-- The awaited operations of `runQueries` (`queries.js`), in source order. -/
def queriesOps : List String :=
  ["connect", "findFiction", "findRecent", "findOrwell", "updateOne1984",
   "deleteOneMobyDick", "findInStockRecent", "findProjected", "sortPriceAsc",
   "sortPriceDesc", "paginate", "aggAvgPriceByGenre", "aggTopAuthor",
   "aggBooksByDecade", "createIndexTitle", "createIndexCompound",
   "explainTitleSearch"]

/-- The awaited operations of `runAggregations` (`aggregations.js`). -/
def aggregationOps : List String :=
  ["connect", "aggAvgPriceByGenre", "aggMostBooksByAuthor", "aggBooksByDecade",
   "aggTotalPagesByGenre", "aggTopPublishers", "aggBooksByPriceRange",
   "aggAvgPagesByAuthor", "aggStockStatus"]

/-- The awaited operations of `runIndexing` (`indexing.js`). -/
def indexingOps : List String :=
  ["connect", "createIndexTitle", "createIndexAuthor", "createIndexGenrePrice",
   "createIndexText", "listIndexes", "findFictionTimed", "findFictionPriceHint",
   "textSearchPython"]

/-- The fully sequential trace of operations `0 … i-1`. -/
def seqTrace (i : Nat) : List Event :=
  (List.range i).flatMap fun j => [Event.issue j, Event.complete j]

/-! ### Claim C3 -/

/-- **C3.** For every fixture dataset, the average-price-by-genre aggregation
returns, for each genre present, an `averagePrice` equal to the arithmetic mean
of `price` over exactly the documents of that genre (and no other value is
reported for that genre). -/
theorem C3_avgPriceByGenre_mean (docs : List Book) (g : String)
    (hg : g ∈ docs.map Book.genre) :
    ∃ q, (g, q) ∈ avgPriceByGenre docs ∧
      q = avgQ ((docs.filter fun b => b.genre == g).map Book.price) ∧
      ∀ q', (g, q') ∈ avgPriceByGenre docs → q' = q := by
  refine ⟨avgQ ((docs.filter fun b => b.genre == g).map Book.price), ?_, rfl, ?_⟩
  · have hmem : g ∈ (docs.map Book.genre).dedup := List.mem_dedup.2 hg
    have hmap :
        (g, avgQ ((docs.filter fun b => b.genre == g).map Book.price)) ∈
          ((docs.map Book.genre).dedup).map fun g =>
            (g, avgQ ((docs.filter fun b => b.genre == g).map Book.price)) :=
      List.mem_map_of_mem _ hmem
    exact ((List.perm_insertionSort _ _).mem_iff).2 hmap
  · intro q' hq'
    have hmap := ((List.perm_insertionSort _ _).mem_iff).1 hq'
    obtain ⟨x, _, hxe⟩ := List.mem_map.1 hmap
    obtain ⟨hx1, hx2⟩ := Prod.mk.injEq .. ▸ hxe
    subst hx1
    exact hx2.symm

/-- Witness for C3 on a two-genre fixture. -/
theorem C3_witness :
    "Fiction" ∈ ([⟨"1984", "George Orwell", "Fiction", 1949, 10, 328, "Secker", true⟩,
        ⟨"Dune", "Frank Herbert", "Sci-Fi", 1965, 20, 412, "Chilton", true⟩,
        ⟨"Animal Farm", "George Orwell", "Fiction", 1945, 14, 112, "Secker", true⟩] :
          List Book).map Book.genre ∧
    ∃ q, (("Fiction", q) ∈ avgPriceByGenre
        [⟨"1984", "George Orwell", "Fiction", 1949, 10, 328, "Secker", true⟩,
         ⟨"Dune", "Frank Herbert", "Sci-Fi", 1965, 20, 412, "Chilton", true⟩,
         ⟨"Animal Farm", "George Orwell", "Fiction", 1945, 14, 112, "Secker", true⟩]) ∧
      q = avgQ ((([⟨"1984", "George Orwell", "Fiction", 1949, 10, 328, "Secker", true⟩,
         ⟨"Dune", "Frank Herbert", "Sci-Fi", 1965, 20, 412, "Chilton", true⟩,
         ⟨"Animal Farm", "George Orwell", "Fiction", 1945, 14, 112, "Secker", true⟩] :
           List Book).filter fun b => b.genre == "Fiction").map Book.price) ∧
      ∀ q', (("Fiction", q') ∈ avgPriceByGenre
        [⟨"1984", "George Orwell", "Fiction", 1949, 10, 328, "Secker", true⟩,
         ⟨"Dune", "Frank Herbert", "Sci-Fi", 1965, 20, 412, "Chilton", true⟩,
         ⟨"Animal Farm", "George Orwell", "Fiction", 1945, 14, 112, "Secker", true⟩]) →
        q' = q :=
  ⟨by decide, C3_avgPriceByGenre_mean _ "Fiction" (by decide)⟩

theorem booksByDecade_eq_sort (docs : List Book) :
    booksByDecade docs = List.insertionSort keyLE (decadeGroups docs) := rfl

theorem decadeGroups_keys (docs : List Book) :
    (decadeGroups docs).map Prod.fst =
      (docs.map fun b => decadeStr b.published_year).dedup := by
  unfold decadeGroups
  rw [List.map_map]
  exact List.map_id' _

theorem decadeGroups_keys_nodup (docs : List Book) :
    ((decadeGroups docs).map Prod.fst).Nodup := by
  rw [decadeGroups_keys]
  exact List.nodup_dedup _

/-- **C4.** Every document is counted in exactly one group of the decade
pipeline, namely the group whose `_id` is `toString (10 * floor(year / 10)) ++ "s"`;
each group's count is the number of documents of that decade; and the groups
come out sorted by `_id` ascending. -/
theorem C4_booksByDecade (docs : List Book) :
    (∀ b ∈ docs,
      (booksByDecade docs).countP (fun e => e.1 == decadeStr b.published_year) = 1) ∧
    (∀ e ∈ booksByDecade docs,
      e.2 = (docs.filter fun b => decadeStr b.published_year == e.1).length) ∧
    List.Sorted keyLE (booksByDecade docs) := by
  refine ⟨?_, ?_, ?_⟩
  · intro b hb
    rw [booksByDecade_eq_sort,
      (List.perm_insertionSort keyLE (decadeGroups docs)).countP_eq]
    have hkeys : (decadeGroups docs).countP (fun e => e.1 == decadeStr b.published_year) =
        ((decadeGroups docs).map Prod.fst).countP (fun d => d == decadeStr b.published_year) := by
      rw [List.countP_map]
      rfl
    rw [hkeys]
    have hmemkey : decadeStr b.published_year ∈ (decadeGroups docs).map Prod.fst := by
      rw [decadeGroups_keys]
      exact List.mem_dedup.2 (List.mem_map_of_mem _ hb)
    have := List.count_eq_one_of_mem (decadeGroups_keys_nodup docs) hmemkey
    simpa [List.count] using this
  · intro e he
    have hmem := ((List.perm_insertionSort keyLE (decadeGroups docs)).mem_iff).1
      (booksByDecade_eq_sort docs ▸ he)
    obtain ⟨d, _, hde⟩ := List.mem_map.1 hmem
    obtain ⟨h1, h2⟩ := Prod.mk.injEq .. ▸ hde
    subst h1
    exact h2.symm
  · rw [booksByDecade_eq_sort]
    exact List.sorted_insertionSort keyLE (decadeGroups docs)

/-- Witness for C4 on a fixture spanning two decades. -/
theorem C4_witness :
    (booksByDecade
      [⟨"1984", "George Orwell", "Fiction", 1949, 10, 328, "Secker", true⟩,
       ⟨"Dune", "Frank Herbert", "Sci-Fi", 1965, 20, 412, "Chilton", true⟩,
       ⟨"Animal Farm", "George Orwell", "Fiction", 1945, 14, 112, "Secker", true⟩]).countP
      (fun e => e.1 == decadeStr (1949 : Int)) = 1 :=
  (C4_booksByDecade
    [⟨"1984", "George Orwell", "Fiction", 1949, 10, 328, "Secker", true⟩,
     ⟨"Dune", "Frank Herbert", "Sci-Fi", 1965, 20, 412, "Chilton", true⟩,
     ⟨"Animal Farm", "George Orwell", "Fiction", 1945, 14, 112, "Secker", true⟩]).1
    ⟨"1984", "George Orwell", "Fiction", 1949, 10, 328, "Secker", true⟩ (by decide)

theorem assignedBucket_bound0 (p : ℚ) :
    (assignedBucket p = BucketId.bound 0) ↔ (0 ≤ p ∧ p < 10) := by
  unfold assignedBucket
  split_ifs with h1 h2 h3
  · simp [h1]
  · exact ⟨fun h => absurd (BucketId.bound.inj h) (by norm_num),
      fun h => absurd h h1⟩
  · exact ⟨fun h => absurd (BucketId.bound.inj h) (by norm_num),
      fun h => absurd h h1⟩
  · exact ⟨(fun h => nomatch h), fun h => absurd h h1⟩

theorem assignedBucket_bound10 (p : ℚ) :
    (assignedBucket p = BucketId.bound 10) ↔ (10 ≤ p ∧ p < 15) := by
  unfold assignedBucket
  split_ifs with h1 h2 h3
  · exact ⟨fun h => absurd (BucketId.bound.inj h) (by norm_num),
      fun h => by linarith [h.1, h1.2]⟩
  · simp [h2]
  · exact ⟨fun h => absurd (BucketId.bound.inj h) (by norm_num),
      fun h => absurd h h2⟩
  · exact ⟨(fun h => nomatch h), fun h => absurd h h2⟩

theorem assignedBucket_bound15 (p : ℚ) :
    (assignedBucket p = BucketId.bound 15) ↔ (15 ≤ p ∧ p < 25) := by
  unfold assignedBucket
  split_ifs with h1 h2 h3
  · exact ⟨fun h => absurd (BucketId.bound.inj h) (by norm_num),
      fun h => by linarith [h.1, h1.2]⟩
  · exact ⟨fun h => absurd (BucketId.bound.inj h) (by norm_num),
      fun h => by linarith [h.1, h2.2]⟩
  · simp [h3]
  · exact ⟨(fun h => nomatch h), fun h => absurd h h3⟩

theorem assignedBucket_fallback (p : ℚ) :
    (assignedBucket p = BucketId.fallback "Above $25") ↔
      (¬(0 ≤ p ∧ p < 10) ∧ ¬(10 ≤ p ∧ p < 15) ∧ ¬(15 ≤ p ∧ p < 25)) := by
  unfold assignedBucket
  split_ifs with h1 h2 h3
  · exact ⟨(fun h => nomatch h), fun hr => absurd h1 hr.1⟩
  · exact ⟨(fun h => nomatch h), fun hr => absurd h2 hr.2.1⟩
  · exact ⟨(fun h => nomatch h), fun hr => absurd h3 hr.2.2⟩
  · simp [h1, h2, h3]

theorem inRange0_eq_assigned (b : Book) :
    inRange 0 10 b = (assignedBucket b.price == BucketId.bound 0) := by
  rw [Bool.eq_iff_iff]
  simp only [inRange, Bool.and_eq_true, decide_eq_true_eq, beq_iff_eq]
  exact (assignedBucket_bound0 b.price).symm

theorem inRange10_eq_assigned (b : Book) :
    inRange 10 15 b = (assignedBucket b.price == BucketId.bound 10) := by
  rw [Bool.eq_iff_iff]
  simp only [inRange, Bool.and_eq_true, decide_eq_true_eq, beq_iff_eq]
  exact (assignedBucket_bound10 b.price).symm

theorem inRange15_eq_assigned (b : Book) :
    inRange 15 25 b = (assignedBucket b.price == BucketId.bound 15) := by
  rw [Bool.eq_iff_iff]
  simp only [inRange, Bool.and_eq_true, decide_eq_true_eq, beq_iff_eq]
  exact (assignedBucket_bound15 b.price).symm

theorem bucketDefault_eq_assigned (b : Book) :
    bucketDefaultFilter b = (assignedBucket b.price == BucketId.fallback "Above $25") := by
  unfold bucketDefaultFilter assignedBucket inRange
  by_cases h0 : (0 : ℚ) ≤ b.price <;>
  by_cases ha : b.price < 10 <;>
  by_cases h10 : (10 : ℚ) ≤ b.price <;>
  by_cases hb : b.price < 15 <;>
  by_cases h15 : (15 : ℚ) ≤ b.price <;>
  by_cases hc : b.price < 25 <;>
  simp [h0, ha, h10, hb, h15, hc]

theorem filter_inRange0 (docs : List Book) :
    docs.filter (inRange 0 10) =
      docs.filter fun b => assignedBucket b.price == BucketId.bound 0 :=
  List.filter_congr fun b _ => inRange0_eq_assigned b

theorem filter_inRange10 (docs : List Book) :
    docs.filter (inRange 10 15) =
      docs.filter fun b => assignedBucket b.price == BucketId.bound 10 :=
  List.filter_congr fun b _ => inRange10_eq_assigned b

theorem filter_inRange15 (docs : List Book) :
    docs.filter (inRange 15 25) =
      docs.filter fun b => assignedBucket b.price == BucketId.bound 15 :=
  List.filter_congr fun b _ => inRange15_eq_assigned b

theorem filter_bucketDefault (docs : List Book) :
    docs.filter bucketDefaultFilter =
      docs.filter fun b => assignedBucket b.price == BucketId.fallback "Above $25" :=
  List.filter_congr fun b _ => bucketDefault_eq_assigned b

/-- **C10.** Every document is counted in exactly one output bucket of the
price-range `$bucket` pipeline, the one given by the piecewise rule
`assignedBucket`; and every output bucket's `totalBooks`, `avgPrice` and
`books` are respectively the count, the arithmetic mean of the prices, and the
titles of exactly the documents assigned to it. -/
theorem C10_booksByPriceRange (docs : List Book) :
    (∀ b ∈ docs,
      (booksByPriceRange docs).countP (fun o => o.id == assignedBucket b.price) = 1) ∧
    (∀ o ∈ booksByPriceRange docs,
      o.totalBooks = (docs.filter fun b => assignedBucket b.price == o.id).length ∧
      o.avgPrice = avgQ ((docs.filter fun b => assignedBucket b.price == o.id).map Book.price) ∧
      o.books = (docs.filter fun b => assignedBucket b.price == o.id).map Book.title) := by
  constructor
  · intro b hb
    by_cases c0 : 0 ≤ b.price ∧ b.price < 10
    · have hid : assignedBucket b.price = BucketId.bound 0 := (assignedBucket_bound0 _).2 c0
      have hbf : inRange 0 10 b = true := by
        rw [inRange0_eq_assigned, hid]; exact beq_self_eq_true _
      have hlen : (docs.filter (inRange 0 10)).length ≠ 0 := by
        have hpos : 0 < (docs.filter (inRange 0 10)).length :=
          List.length_pos.2 (List.ne_nil_of_mem (List.mem_filter.2 ⟨hb, hbf⟩))
        omega
      have hne : ((docs.filter (inRange 0 10)).length != 0) = true := bne_iff_ne.2 hlen
      have d1 : (BucketId.bound 10 == BucketId.bound 0) = false := by decide
      have d2 : (BucketId.bound 15 == BucketId.bound 0) = false := by decide
      have d3 : (BucketId.fallback "Above $25" == BucketId.bound 0) = false := by decide
      rw [hid]
      simp [booksByPriceRange, List.countP_filter, List.countP_cons, mkBucket,
        hne, d1, d2, d3]
    · by_cases c10 : 10 ≤ b.price ∧ b.price < 15
      · have hid : assignedBucket b.price = BucketId.bound 10 :=
          (assignedBucket_bound10 _).2 c10
        have hbf : inRange 10 15 b = true := by
          rw [inRange10_eq_assigned, hid]; exact beq_self_eq_true _
        have hlen : (docs.filter (inRange 10 15)).length ≠ 0 := by
          have hpos : 0 < (docs.filter (inRange 10 15)).length :=
            List.length_pos.2 (List.ne_nil_of_mem (List.mem_filter.2 ⟨hb, hbf⟩))
          omega
        have hne : ((docs.filter (inRange 10 15)).length != 0) = true := bne_iff_ne.2 hlen
        have d1 : (BucketId.bound 0 == BucketId.bound 10) = false := by decide
        have d2 : (BucketId.bound 15 == BucketId.bound 10) = false := by decide
        have d3 : (BucketId.fallback "Above $25" == BucketId.bound 10) = false := by decide
        rw [hid]
        simp [booksByPriceRange, List.countP_filter, List.countP_cons, mkBucket,
          hne, d1, d2, d3]
      · by_cases c15 : 15 ≤ b.price ∧ b.price < 25
        · have hid : assignedBucket b.price = BucketId.bound 15 :=
            (assignedBucket_bound15 _).2 c15
          have hbf : inRange 15 25 b = true := by
            rw [inRange15_eq_assigned, hid]; exact beq_self_eq_true _
          have hlen : (docs.filter (inRange 15 25)).length ≠ 0 := by
            have hpos : 0 < (docs.filter (inRange 15 25)).length :=
              List.length_pos.2 (List.ne_nil_of_mem (List.mem_filter.2 ⟨hb, hbf⟩))
            omega
          have hne : ((docs.filter (inRange 15 25)).length != 0) = true := bne_iff_ne.2 hlen
          have d1 : (BucketId.bound 0 == BucketId.bound 15) = false := by decide
          have d2 : (BucketId.bound 10 == BucketId.bound 15) = false := by decide
          have d3 : (BucketId.fallback "Above $25" == BucketId.bound 15) = false := by decide
          rw [hid]
          simp [booksByPriceRange, List.countP_filter, List.countP_cons, mkBucket,
            hne, d1, d2, d3]
        · have hid : assignedBucket b.price = BucketId.fallback "Above $25" :=
            (assignedBucket_fallback _).2 ⟨c0, c10, c15⟩
          have hbf : bucketDefaultFilter b = true := by
            rw [bucketDefault_eq_assigned, hid]; exact beq_self_eq_true _
          have hlen : (docs.filter bucketDefaultFilter).length ≠ 0 := by
            have hpos : 0 < (docs.filter bucketDefaultFilter).length :=
              List.length_pos.2 (List.ne_nil_of_mem (List.mem_filter.2 ⟨hb, hbf⟩))
            omega
          have hne : ((docs.filter bucketDefaultFilter).length != 0) = true :=
            bne_iff_ne.2 hlen
          have d1 : (BucketId.bound 0 == BucketId.fallback "Above $25") = false := by decide
          have d2 : (BucketId.bound 10 == BucketId.fallback "Above $25") = false := by decide
          have d3 : (BucketId.bound 15 == BucketId.fallback "Above $25") = false := by decide
          rw [hid]
          simp [booksByPriceRange, List.countP_filter, List.countP_cons, mkBucket,
            hne, d1, d2, d3]
  · intro o ho
    have hmem := (List.mem_filter.1 ho).1
    simp only [List.mem_cons, List.not_mem_nil, or_false] at hmem
    rcases hmem with h | h | h | h <;> subst h <;> simp only [mkBucket]
    · rw [← filter_inRange0]
      exact ⟨rfl, rfl, rfl⟩
    · rw [← filter_inRange10]
      exact ⟨rfl, rfl, rfl⟩
    · rw [← filter_inRange15]
      exact ⟨rfl, rfl, rfl⟩
    · rw [← filter_bucketDefault]
      exact ⟨rfl, rfl, rfl⟩

/-- Witness for C10 on a one-document fixture priced in the `[10,15)` bucket. -/
theorem C10_witness :
    (booksByPriceRange [⟨"1984", "George Orwell", "Fiction", 1949, 12, 328, "Secker", true⟩]).countP
      (fun o => o.id == assignedBucket (12 : ℚ)) = 1 :=
  (C10_booksByPriceRange
    [⟨"1984", "George Orwell", "Fiction", 1949, 12, 328, "Secker", true⟩]).1
    ⟨"1984", "George Orwell", "Fiction", 1949, 12, 328, "Secker", true⟩ (by decide)

/-! ### Claims C5 and C9: CRUD result counts and frame conditions -/

theorem updateOne_split (f : Book → Bool) (u : Book → Book) (docs : List Book) :
    ((∀ b ∈ docs, f b = false) ∧ updateOne f u docs = (docs, ⟨0, 0⟩)) ∨
    (∃ l1 b l2, docs = l1 ++ b :: l2 ∧ (∀ x ∈ l1, f x = false) ∧ f b = true ∧
      updateOne f u docs = (l1 ++ u b :: l2, ⟨1, if u b = b then 0 else 1⟩)) := by
  induction docs with
  | nil => exact Or.inl ⟨fun b hb => absurd hb (List.not_mem_nil b), rfl⟩
  | cons a rest ih =>
    by_cases ha : f a = true
    · refine Or.inr ⟨[], a, rest, rfl, fun x hx => absurd hx (List.not_mem_nil x), ha, ?_⟩
      simp [updateOne, ha]
    · have ha' : f a = false := Bool.eq_false_iff.mpr ha
      rcases ih with ⟨hall, heq⟩ | ⟨l1, b, l2, hsplit, hl1, hb, heq⟩
      · refine Or.inl ⟨?_, ?_⟩
        · intro b hb
          rcases List.mem_cons.1 hb with rfl | hb
          · exact ha'
          · exact hall b hb
        · simp [updateOne, ha', heq]
      · subst hsplit
        refine Or.inr ⟨a :: l1, b, l2, rfl, ?_, hb, ?_⟩
        · intro x hx
          rcases List.mem_cons.1 hx with rfl | hx
          · exact ha'
          · exact hl1 x hx
        · simp [updateOne, ha', heq]

theorem deleteOne_split (f : Book → Bool) (docs : List Book) :
    ((∀ b ∈ docs, f b = false) ∧ deleteOne f docs = (docs, 0)) ∨
    (∃ l1 b l2, docs = l1 ++ b :: l2 ∧ (∀ x ∈ l1, f x = false) ∧ f b = true ∧
      deleteOne f docs = (l1 ++ l2, 1)) := by
  induction docs with
  | nil => exact Or.inl ⟨fun b hb => absurd hb (List.not_mem_nil b), rfl⟩
  | cons a rest ih =>
    by_cases ha : f a = true
    · refine Or.inr ⟨[], a, rest, rfl, fun x hx => absurd hx (List.not_mem_nil x), ha, ?_⟩
      simp [deleteOne, ha]
    · have ha' : f a = false := Bool.eq_false_iff.mpr ha
      rcases ih with ⟨hall, heq⟩ | ⟨l1, b, l2, hsplit, hl1, hb, heq⟩
      · refine Or.inl ⟨?_, ?_⟩
        · intro b hb
          rcases List.mem_cons.1 hb with rfl | hb
          · exact ha'
          · exact hall b hb
        · simp [deleteOne, ha', heq]
      · subst hsplit
        refine Or.inr ⟨a :: l1, b, l2, rfl, ?_, hb, ?_⟩
        · intro x hx
          rcases List.mem_cons.1 hx with rfl | hx
          · exact ha'
          · exact hl1 x hx
        · simp [deleteOne, ha', heq]

/-- Counterexample to C5 as stated: in the collection
`[book1984at1399, mobyDick]` exactly one document matches each filter, yet the
update reports `modifiedCount = 0`, because the matched document's price is
already `13.99` and an update that writes the existing value modifies
nothing. -/
theorem C5_counterexample :
    (([book1984at1399, mobyDick].countP fun b => b.title == "1984") = 1) ∧
    (([book1984at1399, mobyDick].countP fun b => b.title == "Moby Dick") = 1) ∧
    ¬((updated [book1984at1399, mobyDick]).2.modifiedCount = 1 ∧
      (deleted [book1984at1399, mobyDick]).2 = 1) := by
  refine ⟨by decide, by decide, ?_⟩
  have e : setPrice1399 book1984at1399 = book1984at1399 := rfl
  have hmod : (updated [book1984at1399, mobyDick]).2.modifiedCount = 0 := by
    rw [updated]
    simp only [updateOne]
    rw [if_pos (show (book1984at1399.title == "1984") = true from rfl), if_pos e]
  intro hcl
  have h1 := hcl.1
  rw [hmod] at h1
  exact absurd h1 (by decide)

/-- **C5 (amended).** If exactly one document matches `{ title: '1984' }` and
exactly one matches `{ title: 'Moby Dick' }`, then the update reports
`modifiedCount = 1` provided the matched document's price is not already
`13.99` (a write of the value already present is not counted as a
modification), and the delete reports `deletedCount = 1` unconditionally. -/
theorem C5_update_delete_counts (docs : List Book)
    (h1 : (docs.countP fun b => b.title == "1984") = 1)
    (h3 : (docs.countP fun b => b.title == "Moby Dick") = 1) :
    ((∀ b ∈ docs, b.title = "1984" → b.price ≠ (13.99 : ℚ)) →
      (updated docs).2.modifiedCount = 1) ∧
    (deleted docs).2 = 1 := by
  constructor
  · intro h2
    rcases updateOne_split (fun b => b.title == "1984") setPrice1399 docs with
      ⟨hall, heq⟩ | ⟨l1, b, l2, hsplit, hl1, hb, heq⟩
    · exact absurd (h1 ▸ List.countP_eq_zero.2 fun b hb => by simp [hall b hb])
        (by omega)
    · have hbmem : b ∈ docs := by
        rw [hsplit]
        exact List.mem_append.2 (Or.inr (List.mem_cons_self b l2))
      have htitle : b.title = "1984" := by simpa using hb
      have hprice : b.price ≠ (13.99 : ℚ) := h2 b hbmem htitle
      have hmod : setPrice1399 b ≠ b := by
        intro hcontra
        exact hprice (by rw [← hcontra]; rfl)
      rw [updated, heq]
      simp [hmod]
  · rcases deleteOne_split (fun b => b.title == "Moby Dick") docs with
      ⟨hall, heq⟩ | ⟨l1, b, l2, hsplit, hl1, hb, heq⟩
    · exact absurd (h3 ▸ List.countP_eq_zero.2 fun b hb => by simp [hall b hb])
        (by omega)
    · rw [deleted, heq]

/-- Witness for the amended C5: a fixture where `1984` is priced `11`, plus
the delete count in the no-op state of the counterexample fixture. -/
theorem C5_witness :
    ((([⟨"1984", "George Orwell", "Fiction", 1949, 11, 328, "Secker & Warburg", true⟩,
        mobyDick] : List Book).countP fun b => b.title == "1984") = 1) ∧
    (updated [⟨"1984", "George Orwell", "Fiction", 1949, 11, 328, "Secker & Warburg", true⟩,
        mobyDick]).2.modifiedCount = 1 ∧
    (deleted [⟨"1984", "George Orwell", "Fiction", 1949, 11, 328, "Secker & Warburg", true⟩,
        mobyDick]).2 = 1 ∧
    (deleted [book1984at1399, mobyDick]).2 = 1 := by
  have hc := C5_update_delete_counts
    [⟨"1984", "George Orwell", "Fiction", 1949, 11, 328, "Secker & Warburg", true⟩, mobyDick]
    (by decide) (by decide)
  have hnoop := C5_update_delete_counts [book1984at1399, mobyDick] (by decide) (by decide)
  refine ⟨by decide, ?_, hc.2, hnoop.2⟩
  apply hc.1
  intro b hb ht
  rcases List.mem_cons.1 hb with rfl | hb
  · show (11 : ℚ) ≠ (13.99 : ℚ)
    norm_num
  · rcases List.mem_cons.1 hb with rfl | hb
    · exact absurd ht (by decide)
    · exact absurd hb (List.not_mem_nil b)

/-- **C9.** The update touches at most the single first document matching
`{ title: '1984' }` and only its `price` field; the delete removes at most the
single first document matching `{ title: 'Moby Dick' }`; every other document
(and every other field) is left unchanged. -/
theorem C9_frame (docs : List Book) :
    (((∀ b ∈ docs, b.title ≠ "1984") ∧ (updated docs).1 = docs) ∨
      (∃ l1 b l2, docs = l1 ++ b :: l2 ∧ b.title = "1984" ∧
        (updated docs).1 = l1 ++ { b with price := 13.99 } :: l2)) ∧
    (((∀ b ∈ docs, b.title ≠ "Moby Dick") ∧ (deleted docs).1 = docs) ∨
      (∃ l1 b l2, docs = l1 ++ b :: l2 ∧ b.title = "Moby Dick" ∧
        (deleted docs).1 = l1 ++ l2)) := by
  constructor
  · rcases updateOne_split (fun b => b.title == "1984") setPrice1399 docs with
      ⟨hall, heq⟩ | ⟨l1, b, l2, hsplit, hl1, hb, heq⟩
    · refine Or.inl ⟨fun b hb => by simpa using hall b hb, ?_⟩
      rw [updated, heq]
    · refine Or.inr ⟨l1, b, l2, hsplit, by simpa using hb, ?_⟩
      rw [updated, heq]
      rfl
  · rcases deleteOne_split (fun b => b.title == "Moby Dick") docs with
      ⟨hall, heq⟩ | ⟨l1, b, l2, hsplit, hl1, hb, heq⟩
    · refine Or.inl ⟨fun b hb => by simpa using hall b hb, ?_⟩
      rw [deleted, heq]
    · refine Or.inr ⟨l1, b, l2, hsplit, by simpa using hb, ?_⟩
      rw [deleted, heq]

/-- Witness for C9 at a concrete two-document collection. -/
theorem C9_witness :
    (((∀ b ∈ [book1984at1399, mobyDick], b.title ≠ "1984") ∧
        (updated [book1984at1399, mobyDick]).1 = [book1984at1399, mobyDick]) ∨
      (∃ l1 b l2, [book1984at1399, mobyDick] = l1 ++ b :: l2 ∧ b.title = "1984" ∧
        (updated [book1984at1399, mobyDick]).1 = l1 ++ { b with price := 13.99 } :: l2)) ∧
    (((∀ b ∈ [book1984at1399, mobyDick], b.title ≠ "Moby Dick") ∧
        (deleted [book1984at1399, mobyDick]).1 = [book1984at1399, mobyDick]) ∨
      (∃ l1 b l2, [book1984at1399, mobyDick] = l1 ++ b :: l2 ∧ b.title = "Moby Dick" ∧
        (deleted [book1984at1399, mobyDick]).1 = l1 ++ l2)) :=
  C9_frame [book1984at1399, mobyDick]

/-- **C6.** Index creation is idempotent: if creating `spec` succeeded and
produced index list `st'`, then issuing the very same index definition again
does not error and leaves the index list unchanged. -/
theorem C6_createIndex_idempotent (st : List IndexSpec) (spec : IndexSpec)
    (st' : List IndexSpec) (h : createIndex st spec = .ok st') :
    createIndex st' spec = .ok st' := by
  unfold createIndex at h
  split at h
  · rename_i s hf
    split at h
    · rename_i hs
      cases h
      unfold createIndex
      rw [hf]
      simp only [if_pos hs]
    · cases h
  · rename_i hf
    cases h
    have hone : ([spec].find? fun s => indexName s == indexName spec) = some spec := by
      rw [List.find?_cons]
      simp [beq_self_eq_true]
    unfold createIndex
    rw [List.find?_append, hf, Option.none_or, hone]
    simp

/-- Witness for C6: creating `{ title: 1 }` twice on an empty index list. -/
theorem C6_witness :
    createIndex [] titleIndex = .ok [titleIndex] ∧
    createIndex [titleIndex] titleIndex = .ok [titleIndex] :=
  ⟨rfl, C6_createIndex_idempotent [] titleIndex [titleIndex] rfl⟩

/-- **C7.** On an empty collection every query issued by the scripts — every
find filter, projection, sort, pagination, and every aggregation pipeline
including the `$group`, `$limit` and `$bucket` ones — returns the empty result
sequence (and, being total functions here, none errors). -/
theorem C7_empty_collection :
    fictionBooks [] = [] ∧ recentBooks [] = [] ∧ orwellBooks [] = [] ∧
    inStockRecent [] = [] ∧ projectedBooks [] = [] ∧ sortedAsc [] = [] ∧
    sortedDesc [] = [] ∧ paginatedBooks [] = [] ∧ avgPriceByGenre [] = [] ∧
    topAuthor [] = [] ∧ mostBooksByAuthor [] = [] ∧ booksByDecade [] = [] ∧
    totalPagesByGenre [] = [] ∧ topPublishers [] = [] ∧
    booksByPriceRange [] = [] ∧ avgPagesByAuthor [] = [] ∧ stockStatus [] = [] ∧
    fictionCheap [] = [] ∧ searchResults [] = [] ∧ titleSearch [] = [] :=
  ⟨rfl, rfl, rfl, rfl, rfl, rfl, rfl, rfl, rfl, rfl, rfl, rfl, rfl, rfl, rfl,
    rfl, rfl, rfl, rfl, rfl⟩

theorem seqTrace_succ (i : Nat) :
    seqTrace (i + 1) = seqTrace i ++ [Event.issue i, Event.complete i] := by
  unfold seqTrace
  rw [List.range_succ, List.flatMap_append]
  rfl

theorem tryTraceFrom_ok (fail : Nat → Bool) :
    ∀ n k, (∀ j, k ≤ j → j < k + n → fail j = false) →
      tryTraceFrom fail k n =
        ((List.range' k n).flatMap fun j => [Event.issue j, Event.complete j],
          false) := by
  intro n
  induction n with
  | zero => intro k _; rfl
  | succ n ih =>
    intro k h
    have hk : fail k = false := h k le_rfl (by omega)
    have hrec := ih (k + 1) fun j h1 h2 => h j (by omega) (by omega)
    simp only [tryTraceFrom, hk, Bool.false_eq_true, if_false, hrec,
      List.range'_succ, List.flatMap_cons]
    rfl

theorem tryTraceFrom_throws (fail : Nat → Bool) :
    ∀ n k i, k ≤ i → i < k + n → (∀ j, k ≤ j → j < i → fail j = false) →
      fail i = true →
      tryTraceFrom fail k n =
        (((List.range' k (i - k)).flatMap fun j =>
            [Event.issue j, Event.complete j]) ++ [Event.issue i], true) := by
  intro n
  induction n with
  | zero => intro k i h1 h2 _ _; omega
  | succ n ih =>
    intro k i hki hin hpre hf
    by_cases hk : k = i
    · subst hk
      simp [tryTraceFrom, hf]
    · have hklt : k < i := by omega
      have hkf : fail k = false := hpre k le_rfl hklt
      have hrec := ih (k + 1) i (by omega) (by omega)
        (fun j h1 h2 => hpre j (by omega) h2) hf
      have hrange : List.range' k (i - k) = k :: List.range' (k + 1) (i - (k + 1)) := by
        have hik : i - k = (i - (k + 1)) + 1 := by omega
        rw [hik, List.range'_succ]
      simp only [tryTraceFrom, hkf, Bool.false_eq_true, if_false, hrec,
        hrange, List.flatMap_cons]
      rfl

/-- Canonical form of every script run: either every operation succeeded, or
there is a first failing operation `i`, the trace is the sequential prefix up
to `i`, the issue of `i`, the error log, and the close. -/
theorem runScript_cases (ops : List String) (fail : Nat → Bool) :
    (runScript ops fail = seqTrace ops.length ++ [Event.close] ∧
      ∀ j, j < ops.length → fail j = false) ∨
    (∃ i, i < ops.length ∧ fail i = true ∧ (∀ j, j < i → fail j = false) ∧
      runScript ops fail =
        seqTrace i ++ [Event.issue i, Event.logError, Event.close]) := by
  by_cases hall : ∀ j, j < ops.length → fail j = false
  · left
    refine ⟨?_, hall⟩
    unfold runScript
    rw [tryTraceFrom_ok fail ops.length 0 fun j h1 h2 => hall j (by omega)]
    simp [seqTrace, List.range_eq_range']
  · right
    push_neg at hall
    obtain ⟨j0, hj0, hfj0⟩ := hall
    have hfj0' : fail j0 = true := by
      cases hfe : fail j0
      · exact absurd hfe hfj0
      · rfl
    have hex : ∃ j, fail j = true := ⟨j0, hfj0'⟩
    classical
    have hflt : Nat.find hex < ops.length :=
      lt_of_le_of_lt (Nat.find_min' hex hfj0') hj0
    refine ⟨Nat.find hex, hflt, Nat.find_spec hex, ?_, ?_⟩
    · intro j hj
      cases hfe : fail j
      · rfl
      · exact absurd hfe (Nat.find_min hex hj)
    · unfold runScript
      rw [tryTraceFrom_throws fail ops.length 0 (Nat.find hex) (by omega)
        (by omega)
        (fun j h1 h2 => by
          cases hfe : fail j
          · rfl
          · exact absurd hfe (Nat.find_min hex h2))
        (Nat.find_spec hex)]
      simp [seqTrace, List.range_eq_range']

theorem seqTrace_count_close (i : Nat) : (seqTrace i).count Event.close = 0 := by
  induction i with
  | zero => rfl
  | succ i ih =>
    rw [seqTrace_succ, List.count_append, ih]
    rfl

theorem seqTrace_count_issue (j : Nat) :
    ∀ i, (seqTrace i).count (Event.issue j) = if j < i then 1 else 0 := by
  intro i
  induction i with
  | zero => simp [seqTrace]
  | succ i ih =>
    rw [seqTrace_succ, List.count_append, ih]
    have hc : ([Event.issue i, Event.complete i] : List Event).count (Event.issue j) =
        if j = i then 1 else 0 := by
      by_cases hji : j = i
      · subst hji
        simp
      · simp [List.count_cons, Ne.symm hji, hji]
    rw [hc]
    split_ifs <;> omega

theorem seqTrace_count_complete (j : Nat) :
    ∀ i, (seqTrace i).count (Event.complete j) = if j < i then 1 else 0 := by
  intro i
  induction i with
  | zero => simp [seqTrace]
  | succ i ih =>
    rw [seqTrace_succ, List.count_append, ih]
    have hc : ([Event.issue i, Event.complete i] : List Event).count (Event.complete j) =
        if j = i then 1 else 0 := by
      by_cases hji : j = i
      · subst hji
        simp
      · simp [List.count_cons, Ne.symm hji, hji]
    rw [hc]
    split_ifs <;> omega

theorem mem_seqTrace_issue (j i : Nat) : Event.issue j ∈ seqTrace i ↔ j < i := by
  induction i with
  | zero => simp [seqTrace]
  | succ i ih =>
    rw [seqTrace_succ]
    simp only [List.mem_append, ih, List.mem_cons, Event.issue.injEq,
      List.not_mem_nil, or_false, reduceCtorEq]
    omega

theorem seq_sublist_of_lt {j i : Nat} (h : j < i) :
    (seqTrace j ++ [Event.issue j]).Sublist (seqTrace i) := by
  induction i with
  | zero => omega
  | succ i ih =>
    rw [seqTrace_succ]
    by_cases hji : j < i
    · exact (ih hji).trans (List.sublist_append_left _ _)
    · have hj : j = i := by omega
      subst hj
      exact List.Sublist.append_left
        (List.cons_sublist_cons.2 (List.nil_sublist _)) _

theorem runScript_count_close (ops : List String) (fail : Nat → Bool) :
    (runScript ops fail).count Event.close = 1 := by
  rcases runScript_cases ops fail with ⟨heq, _⟩ | ⟨i, _, _, _, heq⟩ <;>
    rw [heq, List.count_append, seqTrace_count_close] <;> rfl

/-- **C1.** Each of the three scripts closes the connection exactly once on
every execution path, whether the operation sequence completes or throws at
any point. -/
theorem C1_close_exactly_once (fail : Nat → Bool) :
    (runScript queriesOps fail).count Event.close = 1 ∧
    (runScript aggregationOps fail).count Event.close = 1 ∧
    (runScript indexingOps fail).count Event.close = 1 :=
  ⟨runScript_count_close _ _, runScript_count_close _ _,
    runScript_count_close _ _⟩

/-- **C2.** When every operation before `i` succeeds and operation `i`
throws, the run is exactly the completed prefix, the issue of the failing
operation, the single error log, and the teardown close — in particular no
operation after `i` is ever issued, and there is no retry. -/
theorem C2_failure_aborts (ops : List String) (fail : Nat → Bool) (i : Nat)
    (hi : i < ops.length) (hpre : ∀ j, j < i → fail j = false)
    (hf : fail i = true) :
    runScript ops fail =
      seqTrace i ++ [Event.issue i, Event.logError, Event.close] ∧
    ∀ j, i < j → Event.issue j ∉ runScript ops fail := by
  have h1 : runScript ops fail =
      seqTrace i ++ [Event.issue i, Event.logError, Event.close] := by
    unfold runScript
    rw [tryTraceFrom_throws fail ops.length 0 i (by omega) (by omega)
      (fun j _ hb => hpre j hb) hf]
    simp [seqTrace, List.range_eq_range']
  refine ⟨h1, ?_⟩
  intro j hj hmem
  rw [h1] at hmem
  rcases List.mem_append.1 hmem with hm | hm
  · exact absurd ((mem_seqTrace_issue j i).1 hm) (by omega)
  · simp only [List.mem_cons, Event.issue.injEq, List.not_mem_nil, or_false,
      reduceCtorEq] at hm
    omega

/-- Witness for C2: in the aggregation script, operation 2 failing aborts the
rest of the run. -/
theorem C2_witness :
    (runScript aggregationOps (fun n => n == 2) =
      seqTrace 2 ++ [Event.issue 2, Event.logError, Event.close]) ∧
    ∀ j, 2 < j → Event.issue j ∉ runScript aggregationOps (fun n => n == 2) :=
  C2_failure_aborts aggregationOps (fun n => n == 2) 2 (by decide) (by decide)
    (by decide)

/-- **C8.** Execution is strictly sequential: whenever operation `j` is
issued, every earlier operation has already been issued and completed, in
order, before that issue (the sequential prefix is a sublist of the trace up
to and including `issue j`); moreover no operation is issued or completed
twice, so no two operations are ever in flight at the same time. -/
theorem C8_sequential (ops : List String) (fail : Nat → Bool) (j : Nat) :
    (Event.issue j ∈ runScript ops fail →
      (seqTrace j ++ [Event.issue j]).Sublist (runScript ops fail)) ∧
    (runScript ops fail).count (Event.issue j) ≤ 1 ∧
    (runScript ops fail).count (Event.complete j) ≤ 1 := by
  rcases runScript_cases ops fail with ⟨heq, _⟩ | ⟨i, hi, hfi, hpre, heq⟩
  · refine ⟨?_, ?_, ?_⟩
    · intro hmem
      rw [heq] at hmem ⊢
      rcases List.mem_append.1 hmem with hm | hm
      · exact (seq_sublist_of_lt ((mem_seqTrace_issue _ _).1 hm)).trans
          (List.sublist_append_left _ _)
      · simp at hm
    · rw [heq, List.count_append, seqTrace_count_issue]
      have hc : ([Event.close] : List Event).count (Event.issue j) = 0 := by simp
      rw [hc]
      split_ifs <;> omega
    · rw [heq, List.count_append, seqTrace_count_complete]
      have hc : ([Event.close] : List Event).count (Event.complete j) = 0 := by simp
      rw [hc]
      split_ifs <;> omega
  · refine ⟨?_, ?_, ?_⟩
    · intro hmem
      rw [heq] at hmem ⊢
      rcases List.mem_append.1 hmem with hm | hm
      · exact (seq_sublist_of_lt ((mem_seqTrace_issue _ _).1 hm)).trans
          (List.sublist_append_left _ _)
      · simp only [List.mem_cons, Event.issue.injEq, List.not_mem_nil, or_false,
          reduceCtorEq] at hm
        subst hm
        exact List.Sublist.append_left
          (List.cons_sublist_cons.2 (List.nil_sublist _)) _
    · rw [heq, List.count_append, seqTrace_count_issue]
      have hc : ([Event.issue i, Event.logError, Event.close] : List Event).count
          (Event.issue j) = if j = i then 1 else 0 := by
        by_cases hji : j = i
        · subst hji
          simp
        · simp [List.count_cons, Ne.symm hji, hji]
      rw [hc]
      split_ifs <;> omega
    · rw [heq, List.count_append, seqTrace_count_complete]
      have hc : ([Event.issue i, Event.logError, Event.close] : List Event).count
          (Event.complete j) = 0 := by simp
      rw [hc]
      split_ifs <;> omega

/-- Witness for C8: operation 1 of the queries script, all operations
succeeding. -/
theorem C8_witness :
    ((seqTrace 1 ++ [Event.issue 1]).Sublist (runScript queriesOps (fun _ => false))) ∧
    (runScript queriesOps (fun _ => false)).count (Event.issue 1) ≤ 1 :=
  ⟨(C8_sequential queriesOps (fun _ => false) 1).1 (by decide),
    (C8_sequential queriesOps (fun _ => false) 1).2.1⟩
